import Mathlib

/-!
# Verification of the LTR event-aggregation pipeline

Shallow embedding of the multi-source running-event pipeline
(`backend/server.js` and `functions/api/_scrapers.js`): normalizers,
merge/dedup/past-filter/sort (`fetchAllEvents`), the query-filter layer
(`applyFilters` / `distanceMatches`), the in-process cache handler for
`GET /api/events`, and the error-response bodies of the catch sites.

Conventions of the embedding:
* JS strings are `String`; a nullable string field is `Option String`
  (`none` = JS `null`/`undefined`).
* Machine time is an epoch-millisecond `Int`.
* The host's `new Date(string)` parser is modelled for ISO-8601 shaped
  inputs (`YYYY-MM-DD`, optionally followed by `THH:MM[:SS[.mmm]]` and an
  offset `Z` / `±HH:MM`); any other shape is `none`, the model of an
  Invalid Date (`NaN` time value).  All date strings produced inside the
  pipeline have these shapes.  A date-time without an explicit offset is
  read as UTC (the host would use the server's zone; no claim exercises
  this corner).
* The server's time zone enters as an explicit east-positive offset in
  milliseconds wherever the code consults local time
  (`setHours(0,0,0,0)`, `getMonth()`).
-/

/-! ## Civil-date arithmetic (days since 1970-01-01, proleptic Gregorian) -/

/-- Days from civil date (Howard Hinnant's algorithm, floored division). -/
def daysFromCivil (y m d : Int) : Int :=
  let y' := if m ≤ 2 then y - 1 else y
  let era := y'.fdiv 400
  let yoe := y' - era * 400
  let mp := if m > 2 then m - 3 else m + 9
  let doy := (153 * mp + 2).fdiv 5 + d - 1
  let doe := yoe * 365 + yoe.fdiv 4 - yoe.fdiv 100 + doy
  era * 146097 + doe - 719468

/-- Civil date `(y, m, d)` from days since the epoch. -/
def civilFromDays (z : Int) : Int × Int × Int :=
  let z' := z + 719468
  let era := z'.fdiv 146097
  let doe := z' - era * 146097
  let yoe := (doe - doe.fdiv 1460 + doe.fdiv 36524 - doe.fdiv 146096).fdiv 365
  let y := yoe + era * 400
  let doy := doe - (365 * yoe + yoe.fdiv 4 - yoe.fdiv 100)
  let mp := (5 * doy + 2).fdiv 153
  let d := doy - (153 * mp + 2).fdiv 5 + 1
  let m := if mp < 10 then mp + 3 else mp - 9
  (if m ≤ 2 then y + 1 else y, m, d)

def isLeapYear (y : Int) : Bool :=
  y.emod 4 = 0 && (y.emod 100 ≠ 0 || y.emod 400 = 0)

def daysInMonth (y m : Int) : Int :=
  if m = 2 then (if isLeapYear y then 29 else 28)
  else if m = 4 || m = 6 || m = 9 || m = 11 then 30
  else 31

def msPerDay : Int := 86400000

/-! ## Character/string utilities mirroring the JS operations -/

def isDigitChar (c : Char) : Bool := '0' ≤ c && c ≤ '9'

def digitVal (c : Char) : Int := Int.ofNat (c.toNat - '0'.toNat)

/-- Numeric value of a list of decimal digit characters. -/
def digitsVal (cs : List Char) : Int :=
  cs.foldl (fun acc c => acc * 10 + digitVal c) 0

/-- Model of JS `String.prototype.toLowerCase` (ASCII range; the pipeline
only ever branches on ASCII letters). -/
def jsToLower (s : String) : String :=
  String.mk (s.toList.map Char.toLower)

/-- `sub.isPrefixOf l` under plain `Char` equality. -/
def listPrefixOf : List Char → List Char → Bool
  | [], _ => true
  | _ :: _, [] => false
  | c :: cs, d :: ds => c = d && listPrefixOf cs ds

/-- Contiguous-occurrence test on char lists. -/
def listContains (sub : List Char) : List Char → Bool
  | [] => listPrefixOf sub []
  | l@(_ :: t) => listPrefixOf sub l || listContains sub t

/-- Model of JS `String.prototype.includes`. -/
def strContains (s sub : String) : Bool :=
  listContains sub.toList s.toList

/-- JS word character (`\w`): letter, digit or underscore (ASCII). -/
def isWordChar (c : Char) : Bool :=
  ('a' ≤ c && c ≤ 'z') || ('A' ≤ c && c ≤ 'Z') || isDigitChar c || c = '_'

/-- `prev` is the character just before a candidate match (`none` at the
start of the string): the `\b` condition holds when it is not a word
character. -/
def boundaryBefore : Option Char → Bool
  | none => true
  | some c => !isWordChar c

/-- Occurrence of `sub` bounded by `\b` on both sides, scanning `l`;
`prev` is the character preceding the current position. -/
def listContainsBounded (sub : List Char) : Option Char → List Char → Bool
  | _, [] => false
  | prev, l@(c :: t) =>
    (boundaryBefore prev && listPrefixOf sub l &&
      (match l.drop sub.length with
       | [] => true
       | d :: _ => !isWordChar d)) || listContainsBounded sub (some c) t

/-- Model of `/\bsub\b/.test s` for a literal `sub`. -/
def strContainsWord (s sub : String) : Bool :=
  listContainsBounded sub.toList none s.toList

/-- Replace the first occurrence of `pat` by `rep` (JS `String.replace`
with a string pattern replaces only the first occurrence). -/
def listReplaceFirst (pat rep : List Char) : List Char → List Char
  | [] => []
  | l@(c :: t) =>
    if listPrefixOf pat l then rep ++ l.drop pat.length
    else c :: listReplaceFirst pat rep t

def strReplaceFirst (s pat rep : String) : String :=
  String.mk (listReplaceFirst pat.toList rep.toList s.toList)

/-! ## Model of the host date functions -/

/-- Time-of-day part `HH:MM[:SS[.mmm]]` followed by an optional offset;
returns milliseconds into the day adjusted by the offset, or `none`
for an unparseable time (Invalid Date). -/
def parseTimePart (cs : List Char) : Option Int :=
  match cs with
  | h1 :: h2 :: ':' :: n1 :: n2 :: rest =>
    if isDigitChar h1 && isDigitChar h2 && isDigitChar n1 && isDigitChar n2 then
      let hh := digitsVal [h1, h2]
      let mm := digitsVal [n1, n2]
      if hh ≤ 23 && mm ≤ 59 then
        let withSec : Option (Int × List Char) :=
          match rest with
          | ':' :: s1 :: s2 :: '.' :: f1 :: f2 :: f3 :: rest' =>
            if isDigitChar s1 && isDigitChar s2 && digitsVal [s1, s2] ≤ 59 &&
               isDigitChar f1 && isDigitChar f2 && isDigitChar f3 then
              some (digitsVal [s1, s2] * 1000 + digitsVal [f1, f2, f3], rest')
            else none
          | ':' :: s1 :: s2 :: rest' =>
            if isDigitChar s1 && isDigitChar s2 && digitsVal [s1, s2] ≤ 59 then
              some (digitsVal [s1, s2] * 1000, rest')
            else none
          | _ => some (0, rest)
        match withSec with
        | none => none
        | some (secMs, rest') =>
          let base := hh * 3600000 + mm * 60000 + secMs
          match rest' with
          | [] => some base
          | ['Z'] => some base
          | [sgn, o1, o2, ':', o3, o4] =>
            if (sgn = '+' || sgn = '-') && isDigitChar o1 && isDigitChar o2 &&
               isDigitChar o3 && isDigitChar o4 then
              let off := digitsVal [o1, o2] * 3600000 + digitsVal [o3, o4] * 60000
              some (base - (if sgn = '+' then off else -off))
            else none
          | _ => none
      else none
    else none
  | _ => none

/-- Model of `new Date(s).getTime()` for a string argument: `some ms` for
a valid parse, `none` for an Invalid Date (a `NaN` time value). -/
def parseDateStr (s : String) : Option Int :=
  match s.toList with
  | y1 :: y2 :: y3 :: y4 :: '-' :: m1 :: m2 :: '-' :: d1 :: d2 :: rest =>
    if isDigitChar y1 && isDigitChar y2 && isDigitChar y3 && isDigitChar y4 &&
       isDigitChar m1 && isDigitChar m2 && isDigitChar d1 && isDigitChar d2 then
      let y := digitsVal [y1, y2, y3, y4]
      let m := digitsVal [m1, m2]
      let d := digitsVal [d1, d2]
      if 1 ≤ m && m ≤ 12 && 1 ≤ d && d ≤ daysInMonth y m then
        let base := daysFromCivil y m d * msPerDay
        match rest with
        | [] => some base
        | 'T' :: tr => (parseTimePart tr).map (fun t => base + t)
        | _ => none
      else none
    else none
  | _ => none

/-- Zero-pad the decimal rendering of a non-negative `Int` to `w` digits. -/
def padNum (w : Nat) (n : Int) : String :=
  let s := toString n.toNat
  String.mk (List.replicate (w - s.length) '0') ++ s

/-- `YYYY-MM-DD` rendering of an epoch-day number (the date part of
`Date.prototype.toISOString`). -/
def dateStrOfDays (z : Int) : String :=
  let c := civilFromDays z
  padNum 4 c.1 ++ "-" ++ padNum 2 c.2.1 ++ "-" ++ padNum 2 c.2.2

/-- Date part of `new Date(ms).toISOString()`. -/
def dateStrOfMs (ms : Int) : String :=
  dateStrOfDays (ms.fdiv msPerDay)

/-- Model of JS `parseInt(s)` (radix auto-detection: `0x`/`0X` prefix means
hexadecimal); `none` is `NaN`. -/
def jsParseInt (s : String) : Option Int :=
  let cs := s.toList.dropWhile (fun c => c = ' ' || c = '\t' || c = '\n' || c = '\r')
  let signAndRest : Int × List Char :=
    match cs with
    | '-' :: t => (-1, t)
    | '+' :: t => (1, t)
    | t => (1, t)
  let sgn := signAndRest.1
  let body := signAndRest.2
  let isHexDigit (c : Char) : Bool :=
    isDigitChar c || ('a' ≤ c && c ≤ 'f') || ('A' ≤ c && c ≤ 'F')
  let hexVal (c : Char) : Int :=
    if isDigitChar c then digitVal c
    else if 'a' ≤ c && c ≤ 'f' then Int.ofNat (c.toNat - 'a'.toNat + 10)
    else Int.ofNat (c.toNat - 'A'.toNat + 10)
  match body with
  | '0' :: x :: t =>
    if x = 'x' || x = 'X' then
      let ds := t.takeWhile isHexDigit
      if ds.isEmpty then none
      else some (sgn * ds.foldl (fun acc c => acc * 16 + hexVal c) 0)
    else
      let ds := body.takeWhile isDigitChar
      some (sgn * digitsVal ds)
  | _ =>
    let ds := body.takeWhile isDigitChar
    if ds.isEmpty then none else some (sgn * digitsVal ds)

/-! ## Canonical Event record (spec §3, as produced by the normalizers) -/

structure Event where
  id : String
  title : String
  city : String
  state : String
  startDate : Option String
  endDate : Option String
  distances : List String
  /-- Only set by the backend variant's `normaliseIR`; absent elsewhere. -/
  registrationDeadline : Option String
  price : Option String
  rating : Option Int
  organizer : String
  url : String
  source : String
  region : String
deriving DecidableEq, Repr

/-! ## `fetchAllEvents`: merge, dedup, past-filter, sort -/

/-- The dedup key: title lowercased, non-alphanumerics stripped, first 28
characters, then `"-"` and the `startDate` interpolation (`null` renders
as `"null"` in the template literal). -/
def dedupKey (e : Event) : String :=
  String.mk (((jsToLower e.title).toList.filter
      (fun c => ('a' ≤ c && c ≤ 'z') || isDigitChar c)).take 28)
    ++ "-" ++ (match e.startDate with | some s => s | none => "null")

/-- The `seen`-set filter of `fetchAllEvents`: keep an event only if its
key has not been seen before (first occurrence wins). -/
def dedupGo (seen : List String) : List Event → List Event
  | [] => []
  | e :: es =>
    if dedupKey e ∈ seen then dedupGo seen es
    else e :: dedupGo (dedupKey e :: seen) es

def dedupEvents (l : List Event) : List Event := dedupGo [] l

/-- Past-event filter: `e.startDate && new Date(e.startDate).getTime() >= todayMs`.
A `null` or empty `startDate` is falsy; an unparseable one gives `NaN >= todayMs`,
which is false. -/
def pastKeep (todayMs : Int) (e : Event) : Bool :=
  match e.startDate with
  | none => false
  | some s =>
    s ≠ "" &&
      (match parseDateStr s with
       | some ms => todayMs ≤ ms
       | none => false)

/-- `new Date(e.startDate)` as used by the sort comparator and the month
filter: a `null` startDate coerces to time value `0` (the epoch); a
string parses or is Invalid (`none`). -/
def jsDateOf : Option String → Option Int
  | none => some 0
  | some s => parseDateStr s

/-- The comparator `new Date(a.startDate) - new Date(b.startDate)` is
strictly negative: both time values are numbers and `a`'s is smaller.
(A `NaN` difference is neither negative nor positive, so the stable sort
leaves such pairs in input order.) -/
def sortLt (a b : Event) : Bool :=
  match jsDateOf a.startDate, jsDateOf b.startDate with
  | some x, some y => x < y
  | _, _ => false

/-- Insert `e` after every element strictly smaller under the comparator:
the position a stable sort assigns to `e` relative to already-sorted
later elements. -/
def insertEvent (e : Event) : List Event → List Event
  | [] => [e]
  | x :: xs => if sortLt x e then x :: insertEvent e xs else e :: x :: xs

/-- Stable sort by start date, the model of
`events.sort((a, b) => new Date(a.startDate) - new Date(b.startDate))`
(ECMAScript sorts are stable; for the consistent comparators that reach
this call — all dates valid after the past filter — every stable sort
produces the same list). -/
def sortByDate : List Event → List Event
  | [] => []
  | x :: xs => insertEvent x (sortByDate xs)

/-- Concatenation of the `Promise.allSettled` outcomes in source order —
indiarunning (SSR JSON), bhaagoindia (structured data), townscript
(listing array) — followed by the manual events; a rejected source
contributes nothing. -/
def mergedEvents (r1 r2 r3 : Except String (List Event)) (manual : List Event) :
    List Event :=
  (r1.toOption.getD []) ++ (r2.toOption.getD []) ++ (r3.toOption.getD []) ++ manual

/-- The pipeline state after dedup and past-filter, before the sort. -/
def upcomingEvents (r1 r2 r3 : Except String (List Event)) (manual : List Event)
    (todayMs : Int) : List Event :=
  (dedupEvents (mergedEvents r1 r2 r3 manual)).filter (pastKeep todayMs)

/-- `fetchAllEvents`, with the scraper outcomes, the manual list and the
precomputed `new Date().setHours(0,0,0,0)` value as explicit inputs. -/
def fetchAllEvents (r1 r2 r3 : Except String (List Event)) (manual : List Event)
    (todayMs : Int) : List Event :=
  sortByDate (upcomingEvents r1 r2 r3 manual todayMs)

/-! ## Filter engine -/

structure Query where
  region : Option String
  distance : Option String
  month : Option String
deriving DecidableEq, Repr

def distanceMatches (distLabel filter : String) : Bool :=
  let d := jsToLower distLabel
  match filter with
  | "5k" => strContains d "5k" || d = "5" || strContains d "5 k"
  | "10k" => strContains d "10k" || d = "10" || strContains d "10 k"
  | "half" => strContains d "half" || strContains d "21"
  | "marathon" =>
    (strContains d "marathon" && !strContains d "half" && !strContains d "ultra")
      || strContains d "42"
  | "ultra" =>
    strContains d "ultra" ||
      (strContainsWord d "50" || strContainsWord d "60" || strContainsWord d "100")
  | _ => strContains d (jsToLower filter)

/-- The region checks of `applyFilters` (a falsy or `"all"` value keeps
everything; an unrecognized region value constrains nothing). -/
def regionOk (q : Query) (e : Event) : Bool :=
  match q.region with
  | none => true
  | some r =>
    if r = "" || r = "all" then true
    else if r = "india" && e.region ≠ "India" then false
    else if r = "global" && e.region = "India" then false
    else true

def distanceOk (q : Query) (e : Event) : Bool :=
  match q.distance with
  | none => true
  | some f =>
    if f = "" || f = "all" then true
    else e.distances.any (fun d => distanceMatches d f)

/-- Calendar month (1-based) of `new Date(sd)` in the server's zone
(`getMonth() + 1`); `none` is `NaN` (Invalid Date). -/
def jsMonthOf (tzMs : Int) (sd : Option String) : Option Int :=
  (jsDateOf sd).map (fun ms => (civilFromDays ((ms + tzMs).fdiv msPerDay)).2.1)

/-- The month check: `em !== parseInt(month)` excludes the event; a `NaN`
on either side makes the strict inequality true. -/
def monthOk (tzMs : Int) (q : Query) (e : Event) : Bool :=
  match q.month with
  | none => true
  | some m =>
    if m = "" || m = "all" then true
    else
      match jsMonthOf tzMs e.startDate, jsParseInt m with
      | some em, some mv => em = mv
      | _, _ => false

/-- `applyFilters(events, \x7b region, distance, month \x7d)`; the server's
east-positive UTC offset (consulted by `getMonth`) is an explicit input. -/
def applyFilters (tzMs : Int) (events : List Event) (q : Query) : List Event :=
  events.filter (fun e => regionOk q e && distanceOk q e && monthOk tzMs q e)

/-! ## Local-midnight model for the past filter -/

/-- `new Date().setHours(0, 0, 0, 0)` at instant `nowMs` in a zone `tzMs`
east of UTC: the epoch instant of the most recent local midnight. -/
def jsLocalMidnight (nowMs tzMs : Int) : Int :=
  nowMs - (nowMs + tzMs).emod msPerDay

/-- The local calendar date at instant `nowMs` in zone `tzMs`. -/
def todayStr (nowMs tzMs : Int) : String :=
  dateStrOfDays ((nowMs + tzMs).fdiv msPerDay)

/-! ## Normalizers

Source-native inputs are modelled at the field shapes the JSON sources
deliver: a nullable/omittable field is an `Option`, and a JS `a || b`
fallback on strings treats the empty string as falsy (`jsOrS`,
`jsOrDefault`).  The fields reached through an optional chain
(`e.locationInfo?.city`, `e.location?.address?.addressLocality`, ...)
appear as flattened `Option` fields: `none` when any link of the chain
is missing. -/

/-- JS `a || b` on nullable strings (the empty string is falsy). -/
def jsOrS (a b : Option String) : Option String :=
  match a with
  | some s => if s = "" then b else some s
  | none => b

/-- JS `a || d` collapsed to a plain string default. -/
def jsOrDefault (a : Option String) (d : String) : String :=
  match a with
  | some s => if s = "" then d else s
  | none => d

/-- Template-literal interpolation of a nullable string
(`undefined` renders as the string `"undefined"`). -/
def templateStr : Option String → String
  | some s => s
  | none => "undefined"

/-- `normDate`: keep only the `YYYY-MM-DD` part (text before `'T'`);
falsy input gives `null`. -/
def normDate : Option String → Option String
  | none => none
  | some s => if s = "" then none else some (String.mk (s.toList.takeWhile (· ≠ 'T')))

def isAsciiAlphaNum (c : Char) : Bool :=
  ('a' ≤ c && c ≤ 'z') || ('A' ≤ c && c ≤ 'Z') || isDigitChar c

/-- `str.replace(/[^a-z0-9]/gi, '-')`: every character that is not an
ASCII letter or digit (either case) becomes a hyphen. -/
def slugify (s : String) : String :=
  String.mk (s.toList.map (fun c => if isAsciiAlphaNum c then c else '-'))

/-! ### indiarunning.com -/

structure IrRaw where
  id : Option String
  slug : Option String
  title : Option String
  name : Option String
  locationInfoCity : Option String
  locationInfoState : Option String
  city : Option String
  state : Option String
  eventDateStart : Option String
  eventDateEnd : Option String
  startDate : Option String
  endDate : Option String
  /-- the `category` field of each entry of `e.categories` (`[]` when the
  `categories` field is absent, matching `e.categories || []`). -/
  categories : List (Option String)
  regDateDate : Option String
  price : Option Int
  avgRating : Option Int
  orgName : Option String
deriving Repr

def normaliseIR (e : IrRaw) : Event :=
  { id := "ir-" ++ templateStr (jsOrS e.id e.slug)
    title := jsOrDefault (jsOrS e.title e.name) "Unnamed Event"
    city := jsOrDefault (jsOrS e.locationInfoCity e.city) ""
    state := jsOrDefault (jsOrS e.locationInfoState e.state) ""
    startDate := normDate (jsOrS e.eventDateStart e.startDate)
    endDate := normDate (jsOrS e.eventDateEnd e.endDate)
    distances := e.categories.filterMap
      (fun c => match c with
        | some s => if s = "" then none else some s
        | none => none)
    registrationDeadline := normDate e.regDateDate
    price := match e.price with
      | some p => if p ≠ 0 then some ("₹" ++ toString p) else none
      | none => none
    rating := match e.avgRating with
      | some r => if r ≠ 0 then some r else none
      | none => none
    organizer := jsOrDefault e.orgName ""
    url := "https://www.indiarunning.com/events/" ++ templateStr e.slug
    source := "indiarunning.com"
    region := "India" }

/-! ### bhaagoindia.com -/

/-- The object literal `fetchBhaagoIndia` builds before calling
`normaliseBhaago`: `slug`, `name`, `startDate`, `endDate` are always
strings there; `city` and `organizer` come from the field extractor and
may be `null`. -/
structure BhaagoRaw where
  slug : String
  name : String
  startDate : String
  endDate : String
  city : Option String
  url : String
  organizer : Option String
deriving Repr

def normaliseBhaago (e : BhaagoRaw) : Event :=
  { id := "bi-" ++ e.slug
    title := if e.name = "" then "Unnamed Event" else e.name
    city := jsOrDefault e.city ""
    state := ""
    startDate := some e.startDate
    endDate := some (if e.endDate = "" then e.startDate else e.endDate)
    distances := []
    registrationDeadline := none
    price := none
    rating := none
    organizer := jsOrDefault e.organizer ""
    url := e.url
    source := "bhaagoindia.com"
    region := "India" }

/-! ### townscript.com -/

structure TsRaw where
  name : Option String
  startDate : Option String
  endDate : Option String
  locationAddressLocality : Option String
  locationName : Option String
  offersLowPrice : Option Int
  url : Option String
  performerName : Option String
deriving Repr

def jsWs (c : Char) : Bool :=
  c = ' ' || c = '\t' || c = '\n' || c = '\r'

/-- `/\b<digits>\s*k/`: a boundary-preceded occurrence of `ds` followed by
optional whitespace and `'k'`; `prev` is the character before the scan
position. -/
def scanDigitK (ds : List Char) : Option Char → List Char → Bool
  | _, [] => false
  | prev, l@(c :: t) =>
    (boundaryBefore prev && listPrefixOf ds l &&
      (match (l.drop ds.length).dropWhile jsWs with
       | 'k' :: _ => true
       | [] => false
       | _ :: _ => false))
    || scanDigitK ds (some c) t

/-- `/a\s*b/`: an occurrence of `a`, optional whitespace, then `b`
(patterns are non-empty words in every use). -/
def scanSeqWs (a b : List Char) : List Char → Bool
  | [] => false
  | l@(_ :: t) =>
    (listPrefixOf a l && listPrefixOf b ((l.drop a.length).dropWhile jsWs))
      || scanSeqWs a b t

/-- `/(?<!half\s)(?<!ultra\s)marathon/`: an occurrence of `marathon` not
immediately preceded by `half` + whitespace nor `ultra` + whitespace;
`rp` is the reversed prefix already scanned. -/
def scanMarathonLB (rp : List Char) : List Char → Bool
  | [] => false
  | l@(c :: t) =>
    (listPrefixOf "marathon".toList l &&
      !(match rp with
        | w :: f :: lc :: a :: h :: _ => jsWs w && f = 'f' && lc = 'l' && a = 'a' && h = 'h'
        | _ => false) &&
      !(match rp with
        | w :: a2 :: r :: t2 :: l2 :: u :: _ =>
          jsWs w && a2 = 'a' && r = 'r' && t2 = 't' && l2 = 'l' && u = 'u'
        | _ => false))
    || scanMarathonLB (c :: rp) t

/-- Distance labels inferred from the event name by the pattern rules of
`inferDistances` (applied to the lowercased name; the `i` flags are then
inert). -/
def inferDistances (name : String) : List String :=
  let n := (jsToLower name).toList
  (if scanDigitK ['5'] none n then ["5K"] else []) ++
  (if scanDigitK ['1', '0'] none n then ["10K"] else []) ++
  (if scanSeqWs "half".toList "marathon".toList n || scanSeqWs "21".toList "k".toList n
   then ["Half Marathon"] else []) ++
  (if (scanMarathonLB [] n || scanSeqWs "42".toList "k".toList n) &&
      !listContains "half".toList n && !listContains "ultra".toList n
   then ["Marathon"] else []) ++
  (if listContains "ultra".toList n then ["Ultra"] else [])

/-- `HH:MM:SS.mmmZ` rendering of the time-of-day of an epoch instant. -/
def timeStrOfMs (ms : Int) : String :=
  let r := ms.emod msPerDay
  padNum 2 (r.fdiv 3600000) ++ ":" ++ padNum 2 ((r.fdiv 60000).emod 60) ++ ":" ++
    padNum 2 ((r.fdiv 1000).emod 60) ++ "." ++ padNum 3 (r.emod 1000) ++ "Z"

/-- `new Date(ms).toISOString()`. -/
def isoStrOfMs (ms : Int) : String :=
  dateStrOfMs ms ++ "T" ++ timeStrOfMs ms

/-- `new Date(s).toISOString()` for a string argument: throws a
`RangeError` (modelled as `Except.error ()`) when the parse gives an
Invalid Date. -/
def jsToIso (s : String) : Except Unit String :=
  match parseDateStr s with
  | some ms => .ok (isoStrOfMs ms)
  | none => .error ()

/-- The slug regex `/\/e\/([^/?#]+)/`: first position offering `/e/`
followed by at least one character outside `/?#`. -/
def tsSlugSearch : List Char → Option String
  | [] => none
  | l@(_ :: t) =>
    if listPrefixOf "/e/".toList l then
      let cap := (l.drop 3).takeWhile (fun c => c ≠ '/' && c ≠ '?' && c ≠ '#')
      if cap.isEmpty then tsSlugSearch t else some (String.mk cap)
    else tsSlugSearch t

/-- `normaliseTownscript` can throw: a truthy `startDate`/`endDate` whose
parse is an Invalid Date makes `.toISOString()` raise.  The thrown case
is `Except.error ()`. -/
def normaliseTownscript (e : TsRaw) : Except Unit Event := do
  let name := jsOrDefault e.name ""
  let startDate ← match e.startDate with
    | none => pure none
    | some s =>
      if s = "" then pure (none : Option String)
      else do pure (normDate (some (← jsToIso s)))
  let endDate ← match e.endDate with
    | none => pure startDate
    | some s =>
      if s = "" then pure startDate
      else do pure (normDate (some (← jsToIso s)))
  let distances := inferDistances name
  let city := jsOrDefault (jsOrS e.locationAddressLocality e.locationName) ""
  let price := match e.offersLowPrice with
    | some p => some (if p > 0 then "₹" ++ toString p else "Free")
    | none => none
  let eventUrl := strReplaceFirst (jsOrDefault e.url "") "townscript.com//e/" "townscript.com/e/"
  let slug := match tsSlugSearch eventUrl.toList with
    | some cap => cap
    | none => String.mk ((slugify name).toList.take 40)
  pure
    { id := "ts-" ++ slug
      title := name
      city := city
      state := ""
      startDate := startDate
      endDate := endDate
      distances := distances
      registrationDeadline := none
      price := price
      rating := none
      organizer := jsOrDefault e.performerName ""
      url := eventUrl
      source := "townscript.com"
      region := "India" }

/-! ### Manual events -/

structure ManualRaw where
  title : Option String
  city : Option String
  state : Option String
  startDate : Option String
  endDate : Option String
  distances : Option (List String)
  price : Option String
  organizer : Option String
  url : Option String
  source : Option String
deriving Repr

def normaliseManual (e : ManualRaw) : Event :=
  { id := "manual-" ++ jsToLower (String.mk ((slugify (jsOrDefault e.title "")).toList.take 40))
    title := jsOrDefault e.title "Unnamed Event"
    city := jsOrDefault e.city ""
    state := jsOrDefault e.state ""
    startDate := jsOrS e.startDate none
    endDate := jsOrS e.endDate (jsOrS e.startDate none)
    distances := e.distances.getD []
    registrationDeadline := none
    price := jsOrS e.price none
    rating := none
    organizer := jsOrDefault e.organizer ""
    url := jsOrDefault e.url ""
    source := jsOrDefault e.source "manual"
    region := "India" }

/-- The mapping step of `loadManualEvents` over the parsed
`manual-events.json` entries. -/
def loadManualEvents (raw : List ManualRaw) : List Event :=
  raw.map normaliseManual

/-! ## In-process cache layer (`GET /api/events`, `POST /api/refresh`) -/

def CACHE_TTL_MS : Int := 6 * 60 * 60 * 1000

/-- The module-level `cache` record (`events: null` initially; an empty
array is a truthy, valid cache value). -/
structure ServerCache where
  events : Option (List Event)
  fetchedAt : Int
deriving DecidableEq, Repr

structure ApiOk where
  events : List Event
  total : Nat
  fetchedAtMs : Int
  cached : Bool
  stale : Bool
deriving DecidableEq, Repr

inductive ApiResult where
  | ok (r : ApiOk)
  | err (status : Nat) (msg : String)
deriving DecidableEq, Repr

def ApiResult.status : ApiResult → Nat
  | .ok _ => 200
  | .err s _ => s

/-- One `GET /api/events` request: the state, the request instant, the
query, and the outcome the aggregator would produce if run.  Returns the
response, the new cache state, and whether the aggregator was run. -/
def handleGetEvents (tzMs : Int) (st : ServerCache) (nowMs : Int) (q : Query)
    (agg : Except String (List Event)) : ApiResult × ServerCache × Bool :=
  match st.events with
  | some evs =>
    if nowMs - st.fetchedAt < CACHE_TTL_MS then
      (.ok { events := applyFilters tzMs evs q, total := evs.length,
             fetchedAtMs := st.fetchedAt, cached := true, stale := false },
       st, false)
    else
      match agg with
      | .ok fresh =>
        (.ok { events := applyFilters tzMs fresh q, total := fresh.length,
               fetchedAtMs := nowMs, cached := false, stale := false },
         { events := some fresh, fetchedAt := nowMs }, true)
      | .error _ =>
        (.ok { events := applyFilters tzMs evs q, total := evs.length,
               fetchedAtMs := st.fetchedAt, cached := true, stale := true },
         st, true)
  | none =>
    match agg with
    | .ok fresh =>
      (.ok { events := applyFilters tzMs fresh q, total := fresh.length,
             fetchedAtMs := nowMs, cached := false, stale := false },
       { events := some fresh, fetchedAt := nowMs }, true)
    | .error _ =>
      (.err 500 "Failed to fetch events. Please try again.", st, true)

/-- One `POST /api/refresh` request (in-process variant): always re-runs
the aggregator; on failure the error message itself is the response body
and the cache is untouched. -/
def handleRefresh (st : ServerCache) (nowMs : Int)
    (agg : Except String (List Event)) : ApiResult × ServerCache :=
  match agg with
  | .ok fresh => (.ok { events := [], total := fresh.length, fetchedAtMs := nowMs,
                        cached := false, stale := false },
                  { events := some fresh, fetchedAt := nowMs })
  | .error msg => (.err 500 msg, st)

/-! ## Error-response bodies of the catch sites (spec §7) -/

inductive CatchSite where
  | inProcEvents
  | inProcRefresh
  | edgeEvents
  | edgeRefresh
deriving DecidableEq, Repr

/-- The JSON body each catch handler sends for an error whose `message`
is `msg`, as a field-name/value list. -/
def catchBody : CatchSite → String → List (String × String)
  | .inProcEvents, _ => [("error", "Failed to fetch events. Please try again.")]
  | .inProcRefresh, msg => [("error", msg)]
  | .edgeEvents, msg =>
    [("error", "Failed to fetch events. Please try again."), ("detail", msg)]
  | .edgeRefresh, msg => [("error", msg)]

/-! ## Spec-side marathon bucket (for the refinement check of the
`marathon` classification rule) -/

/-- Modelled from the spec's words, for comparison with `distanceMatches`:
"the `marathon` bucket requires the label to mention `marathon` or `42`
and NOT mention `half` or `ultra`" (case-insensitively). -/
def specMarathonBucket (label : String) : Bool :=
  let d := jsToLower label
  (strContains d "marathon" || strContains d "42") &&
    !strContains d "half" && !strContains d "ultra"

/-! ## Helper lemmas about the stable sort -/

/-- Date value used by the sortedness statements: the time value of
`new Date(e.startDate)` (all events reaching the sort have a valid one). -/
def dateVal (e : Event) : Int := (jsDateOf e.startDate).getD 0

theorem dateVal_eq {e : Event} {k : Int} (h : jsDateOf e.startDate = some k) :
    dateVal e = k := by simp [dateVal, h]

theorem sortLt_eq_of_valid {x e : Event} {kx ke : Int}
    (hx : jsDateOf x.startDate = some kx) (he : jsDateOf e.startDate = some ke) :
    sortLt x e = decide (kx < ke) := by
  simp [sortLt, hx, he]

theorem sortLt_false_of_left_none {x e : Event} (hx : jsDateOf x.startDate = none) :
    sortLt x e = false := by
  simp [sortLt, hx]

theorem insertEvent_perm (e : Event) (l : List Event) :
    List.Perm (insertEvent e l) (e :: l) := by
  induction l with
  | nil => simp [insertEvent]
  | cons x xs ih =>
    by_cases h : sortLt x e
    · simp only [insertEvent, h, if_pos]
      exact List.Perm.trans (List.Perm.cons x ih) (List.Perm.swap e x xs)
    · simp [insertEvent, h]

theorem sortByDate_perm (l : List Event) : List.Perm (sortByDate l) l := by
  induction l with
  | nil => simp [sortByDate]
  | cons x xs ih =>
    exact List.Perm.trans (insertEvent_perm x (sortByDate xs)) (List.Perm.cons x ih)

theorem mem_insertEvent {y e : Event} {l : List Event} (h : y ∈ insertEvent e l) :
    y = e ∨ y ∈ l := by
  have := (insertEvent_perm e l).mem_iff.mp h
  simpa using this

/-- Inserting an event with date value `k` puts it before every element
of the same date value: no skipped element can share the key. -/
theorem filter_insertEvent_eqkey {k : Int} {e : Event} (l : List Event)
    (he : jsDateOf e.startDate = some k) :
    (insertEvent e l).filter (fun x => jsDateOf x.startDate == some k)
      = e :: l.filter (fun x => jsDateOf x.startDate == some k) := by
  induction l with
  | nil => simp [insertEvent, List.filter, he]
  | cons x xs ih =>
    by_cases h : sortLt x e
    · have hx : (jsDateOf x.startDate == some k) = false := by
        cases hjx : jsDateOf x.startDate with
        | none => rw [sortLt_false_of_left_none hjx] at h; exact absurd h (by simp)
        | some kx =>
          rw [sortLt_eq_of_valid hjx he] at h
          have : kx < k := of_decide_eq_true h
          simp [this.ne]
      simp only [insertEvent, h, if_pos, List.filter_cons, hx]
      simpa [hx] using ih
    · simp [insertEvent, h, List.filter_cons, he]

theorem filter_insertEvent_nekey {p : Event → Bool} {e : Event} (l : List Event)
    (he : p e = false) :
    (insertEvent e l).filter p = l.filter p := by
  induction l with
  | nil => simp [insertEvent, List.filter, he]
  | cons x xs ih =>
    by_cases h : sortLt x e
    · simp only [insertEvent, h, if_pos, List.filter_cons, ih]
    · simp [insertEvent, h, List.filter_cons, he]

/-- Stability of the sort: restricted to any one date value, the sorted
list is the input list. -/
theorem filter_sortByDate_key (k : Int) (l : List Event) :
    (sortByDate l).filter (fun x => jsDateOf x.startDate == some k)
      = l.filter (fun x => jsDateOf x.startDate == some k) := by
  induction l with
  | nil => rfl
  | cons x xs ih =>
    show (insertEvent x (sortByDate xs)).filter _ = _
    by_cases hx : jsDateOf x.startDate = some k
    · rw [filter_insertEvent_eqkey (sortByDate xs) hx, ih, List.filter_cons]
      simp [hx]
    · have hxf : (jsDateOf x.startDate == some k) = false := by simpa using hx
      rw [filter_insertEvent_nekey (sortByDate xs) hxf, ih, List.filter_cons, hxf]
      simp

theorem pairwise_insertEvent {e : Event} {l : List Event}
    (hve : (jsDateOf e.startDate).isSome)
    (hv : ∀ x ∈ l, (jsDateOf x.startDate).isSome)
    (hl : l.Pairwise (fun a b => dateVal a ≤ dateVal b)) :
    (insertEvent e l).Pairwise (fun a b => dateVal a ≤ dateVal b) := by
  obtain ⟨ke, hke⟩ := Option.isSome_iff_exists.mp hve
  induction l with
  | nil => simp [insertEvent]
  | cons x xs ih =>
    obtain ⟨kx, hkx⟩ := Option.isSome_iff_exists.mp (hv x (List.mem_cons_self x xs))
    have hvxs : ∀ y ∈ xs, (jsDateOf y.startDate).isSome :=
      fun y hy => hv y (List.mem_cons_of_mem x hy)
    rw [List.pairwise_cons] at hl
    by_cases h : sortLt x e
    · have hxe : dateVal x ≤ dateVal e := by
        rw [sortLt_eq_of_valid hkx hke] at h
        rw [dateVal_eq hkx, dateVal_eq hke]
        exact le_of_lt (of_decide_eq_true h)
      simp only [insertEvent, h, if_pos]
      rw [List.pairwise_cons]
      refine ⟨fun y hy => ?_, ih hvxs hl.2⟩
      rcases mem_insertEvent hy with rfl | hy'
      · exact hxe
      · exact hl.1 y hy'
    · have hex : dateVal e ≤ dateVal x := by
        rw [sortLt_eq_of_valid hkx hke] at h
        rw [dateVal_eq hkx, dateVal_eq hke]
        exact le_of_not_lt (of_decide_eq_false (Bool.of_not_eq_true h))
      simp only [insertEvent, h, if_neg, Bool.not_eq_true]
      rw [List.pairwise_cons]
      refine ⟨fun y hy => ?_, List.pairwise_cons.mpr hl⟩
      rcases List.mem_cons.mp hy with rfl | hy'
      · exact hex
      · exact le_trans hex (hl.1 y hy')

theorem pairwise_sortByDate {l : List Event}
    (hv : ∀ x ∈ l, (jsDateOf x.startDate).isSome) :
    (sortByDate l).Pairwise (fun a b => dateVal a ≤ dateVal b) := by
  induction l with
  | nil => simp [sortByDate]
  | cons x xs ih =>
    have hvxs : ∀ y ∈ xs, (jsDateOf y.startDate).isSome :=
      fun y hy => hv y (List.mem_cons_of_mem x hy)
    have hvs : ∀ y ∈ sortByDate xs, (jsDateOf y.startDate).isSome :=
      fun y hy => hvxs y ((sortByDate_perm xs).mem_iff.mp hy)
    exact pairwise_insertEvent (hv x (List.mem_cons_self x xs)) hvs (ih hvxs)

/-! ## Helper lemmas about dedup and the pipeline stages -/

/-- The `seen`-set filter keeps, for each key not yet seen, exactly the
first event carrying it. -/
theorem dedupGo_filter (k : String) (l : List Event) (seen : List String) :
    (dedupGo seen l).filter (fun e => dedupKey e == k)
      = if k ∈ seen then [] else ((l.find? (fun e => dedupKey e == k)).toList) := by
  induction l generalizing seen with
  | nil => by_cases h : k ∈ seen <;> simp [dedupGo, h]
  | cons e es ih =>
    by_cases hseen : dedupKey e ∈ seen
    · rw [dedupGo, if_pos hseen, ih]
      by_cases hk : k ∈ seen
      · simp [hk]
      · have hne : (dedupKey e == k) = false := by
          simp only [beq_eq_false_iff_ne, ne_eq]
          intro h; exact hk (h ▸ hseen)
        simp [hk, List.find?, hne]
    · rw [dedupGo, if_neg hseen]
      by_cases hek : dedupKey e = k
      · have hkseen : k ∉ seen := fun h => hseen (hek ▸ h)
        rw [List.filter_cons]
        have : (dedupKey e == k) = true := by simp [hek]
        rw [ih]
        simp [this, hek, hkseen, List.find?]
      · have hne : (dedupKey e == k) = false := by simp [hek]
        rw [List.filter_cons, hne]
        simp only [Bool.false_eq_true, if_false]
        rw [ih]
        by_cases hk : k ∈ seen
        · simp [hk, hek, List.mem_cons]
        · have : k ≠ dedupKey e := fun h => hek h.symm
          simp [hk, this, List.find?, hne]

theorem dedupEvents_filter (k : String) (l : List Event) :
    (dedupEvents l).filter (fun e => dedupKey e == k)
      = (l.find? (fun e => dedupKey e == k)).toList := by
  rw [dedupEvents, dedupGo_filter]
  simp

/-- What surviving the past filter means. -/
theorem pastKeep_spec {t : Int} {e : Event} (h : pastKeep t e = true) :
    ∃ s ms, e.startDate = some s ∧ s ≠ "" ∧ parseDateStr s = some ms ∧ t ≤ ms := by
  cases hsd : e.startDate with
  | none => simp only [pastKeep, hsd] at h; exact absurd h (by simp)
  | some s =>
    simp only [pastKeep, hsd] at h
    cases hp : parseDateStr s with
    | none => simp only [hp, Bool.and_false] at h; exact absurd h (by simp)
    | some ms =>
      simp only [hp] at h
      rw [Bool.and_eq_true] at h
      exact ⟨s, ms, rfl, of_decide_eq_true h.1, hp, of_decide_eq_true h.2⟩

/-- Restricted to one dedup key, the pre-sort pipeline keeps at most the
first merged-order event with that key (and keeps it iff it passes the
past filter). -/
theorem upcomingEvents_filter_key (r1 r2 r3 : Except String (List Event))
    (manual : List Event) (todayMs : Int) (k : String) :
    (upcomingEvents r1 r2 r3 manual todayMs).filter (fun e => dedupKey e == k)
      = (((mergedEvents r1 r2 r3 manual).find? (fun x => dedupKey x == k)).toList).filter
          (pastKeep todayMs) := by
  rw [upcomingEvents, List.filter_comm, dedupEvents_filter]

/-- C1 (amended): for every dedup key, the sequence returned by
`fetchAllEvents` contains at most one event with that key; any such event
is the first one in the concatenation order (SSR-JSON, structured-data,
listing-array, manual) carrying the key; and that first event is indeed
kept whenever it passes the past filter — so exactly one survives iff
the key's first occurrence has an on-or-after-today start date. -/
theorem fetchAllEvents_dedup_first_wins
    (r1 r2 r3 : Except String (List Event)) (manual : List Event) (todayMs : Int)
    (k : String) :
    ((fetchAllEvents r1 r2 r3 manual todayMs).countP (fun e => dedupKey e == k) ≤ 1) ∧
    (∀ e, e ∈ fetchAllEvents r1 r2 r3 manual todayMs → dedupKey e = k →
      (mergedEvents r1 r2 r3 manual).find? (fun x => dedupKey x == k) = some e) ∧
    (∀ e, (mergedEvents r1 r2 r3 manual).find? (fun x => dedupKey x == k) = some e →
      pastKeep todayMs e = true → e ∈ fetchAllEvents r1 r2 r3 manual todayMs) := by
  have hperm := sortByDate_perm (upcomingEvents r1 r2 r3 manual todayMs)
  have hfilter := upcomingEvents_filter_key r1 r2 r3 manual todayMs k
  refine ⟨?_, ?_, ?_⟩
  · rw [fetchAllEvents, hperm.countP_eq, List.countP_eq_length_filter, hfilter]
    calc (((mergedEvents r1 r2 r3 manual).find? (fun x => dedupKey x == k)).toList.filter
            (pastKeep todayMs)).length
        ≤ ((mergedEvents r1 r2 r3 manual).find? (fun x => dedupKey x == k)).toList.length :=
          List.length_filter_le _ _
      _ ≤ 1 := by
          cases (mergedEvents r1 r2 r3 manual).find? (fun x => dedupKey x == k) <;> simp
  · intro e he hk
    have he1 : e ∈ upcomingEvents r1 r2 r3 manual todayMs := hperm.mem_iff.mp he
    have he2 : e ∈ (upcomingEvents r1 r2 r3 manual todayMs).filter
        (fun e => dedupKey e == k) := List.mem_filter.mpr ⟨he1, by simp [hk]⟩
    rw [hfilter] at he2
    have he3 := List.mem_of_mem_filter he2
    cases hf : (mergedEvents r1 r2 r3 manual).find? (fun x => dedupKey x == k) with
    | none => rw [hf] at he3; simp at he3
    | some a => rw [hf] at he3; simp at he3; rw [he3]
  · intro e hf hp
    have h1 : e ∈ (((mergedEvents r1 r2 r3 manual).find?
        (fun x => dedupKey x == k)).toList).filter (pastKeep todayMs) := by
      rw [hf]; simp [hp]
    rw [← hfilter] at h1
    exact hperm.mem_iff.mpr (List.mem_of_mem_filter h1)

/-! ### C1: concrete instances -/

/-- Two events from different sources sharing the dedup key
`"cityrun-2020-01-01"`, both dated before today. -/
def c1EvA : Event :=
  { id := "ir-1"
    title := "City Run"
    city := "Pune"
    state := ""
    startDate := some "2020-01-01"
    endDate := some "2020-01-01"
    distances := ["10K"]
    registrationDeadline := none
    price := none
    rating := none
    organizer := ""
    url := ""
    source := "indiarunning.com"
    region := "India" }

def c1EvB : Event :=
  { id := "bi-city-run-2"
    title := "city run!!"
    city := "Pune"
    state := ""
    startDate := some "2020-01-01"
    endDate := some "2020-01-01"
    distances := []
    registrationDeadline := none
    price := none
    rating := none
    organizer := ""
    url := ""
    source := "bhaagoindia.com"
    region := "India" }

/-- An event dated 2026-03-01, for the witness run at today = 2026-01-01. -/
def c1EvC : Event :=
  { id := "ts-future"
    title := "Future Run"
    city := ""
    state := ""
    startDate := some "2026-03-01"
    endDate := some "2026-03-01"
    distances := []
    registrationDeadline := none
    price := none
    rating := none
    organizer := ""
    url := ""
    source := "townscript.com"
    region := "India" }

/-- C1 counterexample: `c1EvA` and `c1EvB` are two distinct input events
with equal dedup keys, yet — their shared start date lying before today
(2026-01-01 local midnight) — the sequence returned by `fetchAllEvents`
keeps neither of them, not "exactly one". -/
theorem fetchAllEvents_dedup_counterexample :
    dedupKey c1EvA = dedupKey c1EvB ∧ c1EvA ≠ c1EvB ∧
    fetchAllEvents (.ok [c1EvA]) (.ok [c1EvB]) (.ok []) [] 1767225600000 = [] := by
  decide

/-- Witness for the amended dedup theorem at a concrete input: the sole
(hence first) event with its key, dated after today, is in the output. -/
theorem fetchAllEvents_dedup_first_wins_witness :
    c1EvC ∈ fetchAllEvents (.ok [c1EvC]) (.ok []) (.ok []) [] 1767225600000 :=
  (fetchAllEvents_dedup_first_wins (.ok [c1EvC]) (.ok []) (.ok []) [] 1767225600000
    (dedupKey c1EvC)).2.2 c1EvC (by decide) (by decide)

/-- The pipeline on a single fulfilled event reduces to its past-filter
verdict. -/
theorem fetchAllEvents_singleton (e : Event) (t : Int) :
    fetchAllEvents (.ok [e]) (.ok []) (.ok []) [] t
      = if pastKeep t e then [e] else [] := by
  by_cases h : pastKeep t e <;>
    simp [fetchAllEvents, upcomingEvents, mergedEvents, dedupEvents, dedupGo,
      sortByDate, insertEvent, List.filter, h, Except.toOption]

/-- C2 (amended): every event in the sequence returned by
`fetchAllEvents` has a non-null, parseable `startDate` whose time value
is at or after the `todayMs` local-midnight threshold; but an event
whose `startDate` is exactly today's date is retained only in server
time zones at or east of UTC: with an east-positive offset `tz` (so that
local midnight of the date parsing to `D` is the instant `D - tz`), the
event survives iff `0 ≤ tz` — not for every server time zone. -/
theorem fetchAllEvents_past_exclusion
    (r1 r2 r3 : Except String (List Event)) (manual : List Event) (todayMs : Int) :
    (∀ e ∈ fetchAllEvents r1 r2 r3 manual todayMs,
       ∃ s ms, e.startDate = some s ∧ parseDateStr s = some ms ∧ todayMs ≤ ms) ∧
    (∀ (S : String) (D tz : Int) (e : Event),
       parseDateStr S = some D → e.startDate = some S →
       (e ∈ fetchAllEvents (.ok [e]) (.ok []) (.ok []) [] (D - tz) ↔ 0 ≤ tz)) := by
  constructor
  · intro e he
    have h1 : e ∈ upcomingEvents r1 r2 r3 manual todayMs :=
      (sortByDate_perm _).mem_iff.mp he
    have h2 : pastKeep todayMs e = true := List.of_mem_filter h1
    obtain ⟨s, ms, hs, _, hp, hle⟩ := pastKeep_spec h2
    exact ⟨s, ms, hs, hp, hle⟩
  · intro S D tz e hP hS
    have hSne : S ≠ "" := by
      intro h
      rw [h, show parseDateStr "" = none from rfl] at hP
      exact Option.noConfusion hP
    have hpk : pastKeep (D - tz) e = decide (0 ≤ tz) := by
      simp only [pastKeep, hS, hP, hSne, ne_eq, not_false_eq_true, decide_True,
        Bool.true_and]
      rw [decide_eq_decide]
      omega
    rw [fetchAllEvents_singleton, hpk]
    by_cases htz : 0 ≤ tz
    · simp [htz]
    · simp [htz]

/-- An event dated 2026-01-01 (today's local date in the scenarios
below). -/
def c2Ev : Event :=
  { id := "manual-new-year-run"
    title := "New Year Run"
    city := "Mumbai"
    state := ""
    startDate := some "2026-01-01"
    endDate := some "2026-01-01"
    distances := ["5K"]
    registrationDeadline := none
    price := none
    rating := none
    organizer := ""
    url := ""
    source := "manual"
    region := "India" }

/-- C2 counterexample: at instant 1767286800000 (2026-01-01T17:00Z) in a
zone 5 hours west of UTC (offset −18 000 000 ms), the local calendar day
is 2026-01-01 — yet the event dated exactly today is dropped by the
pipeline, because its UTC-anchored date instant lies before the local
midnight computed by `setHours(0,0,0,0)`. -/
theorem fetchAllEvents_today_dropped_west_of_utc :
    todayStr 1767286800000 (-18000000) = "2026-01-01" ∧
    c2Ev.startDate = some (todayStr 1767286800000 (-18000000)) ∧
    fetchAllEvents (.ok [c2Ev]) (.ok []) (.ok []) []
      (jsLocalMidnight 1767286800000 (-18000000)) = [] := by
  decide

/-- Witness: in the IST zone (offset +19 800 000 ms east), the event
dated exactly today (2026-01-01) is retained. -/
theorem fetchAllEvents_past_exclusion_witness :
    c2Ev ∈ fetchAllEvents (.ok [c2Ev]) (.ok []) (.ok []) []
      (1767225600000 - 19800000) :=
  ((fetchAllEvents_past_exclusion (.ok []) (.ok []) (.ok []) [] 0).2
    "2026-01-01" 1767225600000 19800000 c2Ev (by decide) rfl).mpr (by decide)

/-- C3: cache TTL of the in-process `GET /api/events` handler.  With a
cached list and age < 6 h, the response is built from the cache
(`cached = true`), the state is unchanged and the aggregator does not
run; with no cached list or age ≥ 6 h, the aggregator runs and (when it
succeeds) the cache record is replaced by the fresh result with the new
timestamp and the response has `cached = false`. -/
theorem handleGetEvents_cache_ttl (tzMs : Int) (st : ServerCache) (nowMs : Int)
    (q : Query) (agg : Except String (List Event)) :
    (∀ evs, st.events = some evs → nowMs - st.fetchedAt < CACHE_TTL_MS →
      handleGetEvents tzMs st nowMs q agg =
        (.ok { events := applyFilters tzMs evs q
               total := evs.length
               fetchedAtMs := st.fetchedAt
               cached := true
               stale := false },
         st, false)) ∧
    (∀ fresh, (st.events = none ∨ CACHE_TTL_MS ≤ nowMs - st.fetchedAt) →
      agg = .ok fresh →
      handleGetEvents tzMs st nowMs q agg =
        (.ok { events := applyFilters tzMs fresh q
               total := fresh.length
               fetchedAtMs := nowMs
               cached := false
               stale := false },
         { events := some fresh, fetchedAt := nowMs }, true)) := by
  constructor
  · intro evs hevs hfresh
    simp [handleGetEvents, hevs, hfresh]
  · intro fresh hmiss hagg
    cases hevs : st.events with
    | none => simp [handleGetEvents, hevs, hagg]
    | some evs =>
      have hexp : CACHE_TTL_MS ≤ nowMs - st.fetchedAt := by
        rcases hmiss with h | h
        · rw [hevs] at h; exact Option.noConfusion h
        · exact h
      simp [handleGetEvents, hevs, hagg, not_lt.mpr hexp]

/-- Witness for the TTL theorem: a fresh-cache read at age 1 s serves the
cache without running the aggregator, and an expired read at age 7 h
replaces the cache. -/
theorem handleGetEvents_cache_ttl_witness :
    handleGetEvents 0 { events := some [], fetchedAt := 0 } 1000
        { region := none, distance := none, month := none } (.ok []) =
      (.ok { events := []
             total := 0
             fetchedAtMs := 0
             cached := true
             stale := false },
       { events := some [], fetchedAt := 0 }, false) ∧
    handleGetEvents 0 { events := some [], fetchedAt := 0 } 25200000
        { region := none, distance := none, month := none } (.ok []) =
      (.ok { events := []
             total := 0
             fetchedAtMs := 25200000
             cached := false
             stale := false },
       { events := some [], fetchedAt := 25200000 }, true) :=
  ⟨(handleGetEvents_cache_ttl 0 { events := some [], fetchedAt := 0 } 1000
      { region := none, distance := none, month := none } (.ok [])).1 [] rfl (by decide),
   (handleGetEvents_cache_ttl 0 { events := some [], fetchedAt := 0 } 25200000
      { region := none, distance := none, month := none } (.ok [])).2 []
      (Or.inr (by decide)) rfl⟩

/-- C4: stale fallback of the in-process `GET /api/events` handler.  When
the aggregator (run on a cache miss) throws and a prior cached list
exists, the response is the prior cached payload filtered per the query,
with `cached = true`, `stale = true`, HTTP status 200, and the cache
record untouched; with no prior cache, the response is a 500 error with
a generic message. -/
theorem handleGetEvents_stale_fallback (tzMs : Int) (st : ServerCache)
    (nowMs : Int) (q : Query) (msg : String)
    (hmiss : st.events = none ∨ CACHE_TTL_MS ≤ nowMs - st.fetchedAt) :
    (∀ evs, st.events = some evs →
      handleGetEvents tzMs st nowMs q (.error msg) =
        (.ok { events := applyFilters tzMs evs q
               total := evs.length
               fetchedAtMs := st.fetchedAt
               cached := true
               stale := true },
         st, true) ∧
      (handleGetEvents tzMs st nowMs q (.error msg)).1.status = 200) ∧
    (st.events = none →
      handleGetEvents tzMs st nowMs q (.error msg) =
        (.err 500 "Failed to fetch events. Please try again.", st, true)) := by
  constructor
  · intro evs hevs
    have hexp : CACHE_TTL_MS ≤ nowMs - st.fetchedAt := by
      rcases hmiss with h | h
      · rw [hevs] at h; exact Option.noConfusion h
      · exact h
    constructor
    · simp [handleGetEvents, hevs, not_lt.mpr hexp]
    · simp [handleGetEvents, hevs, not_lt.mpr hexp, ApiResult.status]
  · intro hevs
    simp [handleGetEvents, hevs]

/-- Witness for the stale-fallback theorem: an expired cache holding one
empty snapshot survives an aggregator failure as a stale 200 response,
and an empty cache turns the same failure into a 500. -/
theorem handleGetEvents_stale_fallback_witness :
    handleGetEvents 0 { events := some [], fetchedAt := 0 } 25200000
        { region := none, distance := none, month := none } (.error "boom") =
      (.ok { events := []
             total := 0
             fetchedAtMs := 0
             cached := true
             stale := true },
       { events := some [], fetchedAt := 0 }, true) ∧
    handleGetEvents 0 { events := none, fetchedAt := 0 } 25200000
        { region := none, distance := none, month := none } (.error "boom") =
      (.err 500 "Failed to fetch events. Please try again.",
       { events := none, fetchedAt := 0 }, true) :=
  ⟨((handleGetEvents_stale_fallback 0 { events := some [], fetchedAt := 0 } 25200000
      { region := none, distance := none, month := none } "boom"
      (Or.inr (by decide))).1 [] rfl).1,
   (handleGetEvents_stale_fallback 0 { events := none, fetchedAt := 0 } 25200000
      { region := none, distance := none, month := none } "boom"
      (Or.inl rfl)).2 rfl⟩

/-- C7: the sequence returned by `fetchAllEvents` is non-decreasing by
`startDate` (its parsed time value — all output events parse, by the
past filter), and the sort is stable under the date-only comparator:
restricted to any single date value, the output lists exactly the
pre-sort events in their pre-sort relative order. -/
theorem fetchAllEvents_sorted_stable (r1 r2 r3 : Except String (List Event))
    (manual : List Event) (todayMs : Int) :
    (fetchAllEvents r1 r2 r3 manual todayMs).Pairwise
      (fun a b => dateVal a ≤ dateVal b) ∧
    ∀ k : Int,
      (fetchAllEvents r1 r2 r3 manual todayMs).filter
          (fun e => jsDateOf e.startDate == some k)
        = (upcomingEvents r1 r2 r3 manual todayMs).filter
            (fun e => jsDateOf e.startDate == some k) := by
  have hv : ∀ e ∈ upcomingEvents r1 r2 r3 manual todayMs,
      (jsDateOf e.startDate).isSome := by
    intro e he
    obtain ⟨s, ms, hs, _, hp, _⟩ := pastKeep_spec (List.of_mem_filter he)
    rw [hs]
    simp [jsDateOf, hp]
  exact ⟨pairwise_sortByDate hv, fun k => filter_sortByDate_key k _⟩

/-- Intersecting two filterings of one list (the order-preserving list
intersection) is filtering by the conjunction. -/
theorem filter_inter_filter {α : Type} [DecidableEq α] (p q : α → Bool)
    (l : List α) :
    (l.filter p).inter (l.filter q) = l.filter (fun a => p a && q a) := by
  rw [List.inter, List.filter_filter]
  apply List.filter_congr
  intro a ha
  simp [List.elem_eq_mem, List.mem_filter, ha, Bool.and_comm]

/-- C9: the three query filters compose with AND semantics —
`applyFilters` under a combined query equals the order-preserving
intersection of the three single-parameter filterings. -/
theorem applyFilters_compose (tzMs : Int) (evs : List Event)
    (r d m : Option String) :
    applyFilters tzMs evs { region := r, distance := d, month := m } =
      ((applyFilters tzMs evs { region := r, distance := none, month := none }).inter
          (applyFilters tzMs evs { region := none, distance := d, month := none })).inter
        (applyFilters tzMs evs { region := none, distance := none, month := m }) := by
  rw [applyFilters, applyFilters, applyFilters, applyFilters,
    filter_inter_filter, filter_inter_filter]
  apply List.filter_congr
  intro e he
  simp only [regionOk, distanceOk, monthOk, Bool.and_true, Bool.true_and]

/-- C10: a present distance filter value other than `"all"` (and other
than the falsy empty string, which the code treats like an absent
parameter) excludes every event whose `distances` list is empty — the
existential match over the list is vacuously false — and since
`normaliseBhaago` always emits an empty `distances` list, every
structured-data-source event is removed by such a filter. -/
theorem applyFilters_distance_excludes_empty (tzMs : Int) (evs : List Event)
    (r m : Option String) (d : String) (x : BhaagoRaw)
    (hne : d ≠ "") (hall : d ≠ "all") :
    (∀ e ∈ applyFilters tzMs evs { region := r, distance := some d, month := m },
       e.distances ≠ []) ∧
    (normaliseBhaago x).distances = [] ∧
    normaliseBhaago x ∉
      applyFilters tzMs evs { region := r, distance := some d, month := m } := by
  have hmain : ∀ e ∈ applyFilters tzMs evs
      { region := r, distance := some d, month := m }, e.distances ≠ [] := by
    intro e he hemp
    have h := List.of_mem_filter he
    rw [Bool.and_eq_true, Bool.and_eq_true] at h
    have hd := h.1.2
    simp only [distanceOk] at hd
    rw [if_neg (by simp [hne, hall])] at hd
    rw [hemp] at hd
    simp at hd
  exact ⟨hmain, rfl, fun hmem => hmain _ hmem rfl⟩

def c10Raw : BhaagoRaw :=
  { slug := "sample-run-7"
    name := "Sample Run"
    startDate := "2026-03-01"
    endDate := "2026-03-01"
    city := none
    url := "https://bhaagoindia.com/events/sample-run-7/"
    organizer := none }

/-- Witness at a concrete distance filter (`"5k"`): the conjunction holds
for the empty event list and a concrete structured-data event. -/
theorem applyFilters_distance_excludes_empty_witness :
    (∀ e ∈ applyFilters 0 []
        { region := none, distance := some "5k", month := none },
       e.distances ≠ []) ∧
    (normaliseBhaago c10Raw).distances = [] ∧
    normaliseBhaago c10Raw ∉
      applyFilters 0 [] { region := none, distance := some "5k", month := none } :=
  applyFilters_distance_excludes_empty 0 [] none none "5k" c10Raw
    (by decide) (by decide)

/-- C6 counterexample: the label `"42K Ultra"` mentions "ultra", so the
claimed rule (and the spec's words, `specMarathonBucket`) excludes it
from the `marathon` bucket — but `distanceMatches` accepts it: the
`includes('42')` disjunct applies regardless of "half"/"ultra". -/
theorem distanceMatches_marathon_counterexample :
    distanceMatches "42K Ultra" "marathon" = true ∧
    specMarathonBucket "42K Ultra" = false := by
  decide

/-- C6 (amended): the `marathon` bucket matches exactly when the label
(case-insensitively) either mentions "marathon" while mentioning neither
"half" nor "ultra", or mentions "42" (the "half"/"ultra" exclusions do
not apply to the "42" disjunct); the claim's examples hold: `"42K"`
matches `marathon` and not `half`, and `"21K"` matches `half`. -/
theorem distanceMatches_marathon_rule (label : String) :
    distanceMatches label "marathon" =
      ((strContains (jsToLower label) "marathon" &&
        !strContains (jsToLower label) "half" &&
        !strContains (jsToLower label) "ultra") ||
       strContains (jsToLower label) "42") ∧
    distanceMatches "42K" "marathon" = true ∧
    distanceMatches "42K" "half" = false ∧
    distanceMatches "21K" "half" = true := by
  exact ⟨rfl, by decide, by decide, by decide⟩

/-- C8 counterexample: the in-process refresh handler's catch — which is
not the edge-cache refresh path — also puts the raw error message in the
response body. -/
theorem catchBody_counterexample :
    catchBody .inProcRefresh "boom" = [("error", "boom")] ∧
    CatchSite.inProcRefresh ≠ CatchSite.edgeRefresh := by
  decide

/-- C8 (amended): only the in-process events handler returns a generic
error body; the in-process refresh handler, the edge events handler
(via a `detail` field), and the edge refresh handler all include the raw
`err.message` in their response bodies. -/
theorem catchBody_exposure (msg : String) :
    catchBody .inProcEvents msg =
      [("error", "Failed to fetch events. Please try again.")] ∧
    catchBody .inProcRefresh msg = [("error", msg)] ∧
    ("detail", msg) ∈ catchBody .edgeEvents msg ∧
    catchBody .edgeRefresh msg = [("error", msg)] := by
  exact ⟨rfl, rfl, by simp [catchBody], rfl⟩

/-- A date-valued input field is harmless for `normaliseTownscript` when
it is absent, falsy, or parses to a valid date. -/
def tsDateFieldOk : Option String → Bool
  | none => true
  | some s => s = "" || (parseDateStr s).isSome

/-- C5 counterexample: `normaliseTownscript` is not total — on a source
item whose `startDate` is a truthy string that does not parse as a date
(the claim's own example of malformed data), `new Date(...).toISOString()`
raises a `RangeError`, modelled as `Except.error`. -/
theorem normaliseTownscript_raises :
    normaliseTownscript
      { name := some "Mystery Run"
        startDate := some "to be announced"
        endDate := none
        locationAddressLocality := none
        locationName := none
        offersLowPrice := none
        url := none
        performerName := none } = .error () := rfl

/-- C5 (amended): `normaliseIR`, `normaliseBhaago` and the manual-events
mapping are total (they are plain functions into `Event` in this
development), but `normaliseTownscript` returns an `Event` exactly when
each of `startDate` and `endDate` is absent, falsy, or parseable as a
date; a truthy unparseable value in either field makes it raise. -/
theorem normaliseTownscript_total_iff (e : TsRaw) :
    (normaliseTownscript e).isOk
      = (tsDateFieldOk e.startDate && tsDateFieldOk e.endDate) := by
  cases hs : e.startDate with
  | none =>
    cases he : e.endDate with
    | none => simp [normaliseTownscript, hs, he, tsDateFieldOk, Except.isOk, Except.toBool, pure, Except.pure, bind, Except.bind]
    | some t =>
      by_cases hte : t = ""
      · simp [normaliseTownscript, hs, he, hte, tsDateFieldOk, Except.isOk, Except.toBool, pure, Except.pure, bind, Except.bind]
      · cases hpt : parseDateStr t with
        | none =>
          simp [normaliseTownscript, hs, he, hte, hpt, jsToIso, tsDateFieldOk,
            Except.isOk, Except.toBool, pure, Except.pure, bind, Except.bind]
        | some mt =>
          simp [normaliseTownscript, hs, he, hte, hpt, jsToIso, tsDateFieldOk,
            Except.isOk, Except.toBool, pure, Except.pure, bind, Except.bind]
  | some s =>
    by_cases hse : s = ""
    · cases he : e.endDate with
      | none => simp [normaliseTownscript, hs, he, hse, tsDateFieldOk, Except.isOk, Except.toBool, pure, Except.pure, bind, Except.bind]
      | some t =>
        by_cases hte : t = ""
        · simp [normaliseTownscript, hs, he, hse, hte, tsDateFieldOk, Except.isOk, Except.toBool, pure, Except.pure, bind, Except.bind]
        · cases hpt : parseDateStr t with
          | none =>
            simp [normaliseTownscript, hs, he, hse, hte, hpt, jsToIso, tsDateFieldOk,
              Except.isOk, Except.toBool, pure, Except.pure, bind, Except.bind]
          | some mt =>
            simp [normaliseTownscript, hs, he, hse, hte, hpt, jsToIso, tsDateFieldOk,
              Except.isOk, Except.toBool, pure, Except.pure, bind, Except.bind]
    · cases hps : parseDateStr s with
      | none =>
        simp [normaliseTownscript, hs, hse, hps, jsToIso, tsDateFieldOk,
          Except.isOk, Except.toBool, pure, Except.pure, bind, Except.bind]
      | some ms =>
        cases he : e.endDate with
        | none =>
          simp [normaliseTownscript, hs, he, hse, hps, jsToIso, tsDateFieldOk,
            Except.isOk, Except.toBool, pure, Except.pure, bind, Except.bind]
        | some t =>
          by_cases hte : t = ""
          · simp [normaliseTownscript, hs, he, hse, hte, hps, jsToIso, tsDateFieldOk,
              Except.isOk, Except.toBool, pure, Except.pure, bind, Except.bind]
          · cases hpt : parseDateStr t with
            | none =>
              simp [normaliseTownscript, hs, he, hse, hte, hps, hpt, jsToIso,
                tsDateFieldOk, Except.isOk, Except.toBool, pure, Except.pure, bind, Except.bind]
            | some mt =>
              simp [normaliseTownscript, hs, he, hse, hte, hps, hpt, jsToIso,
                tsDateFieldOk, Except.isOk, Except.toBool, pure, Except.pure, bind, Except.bind]
